import Mathlib

/-!
Verification of the CLF (Coelanox Library File) container format against its
Rust implementation (`src/format.rs`, `src/packer.rs`, `src/reader.rs`).

The implementation is embedded shallowly:
* a file is a `List Nat` of byte values (each < 256 in a real file);
* machine integers (`u8`, `u16`, `u32`, `u64`) are `Nat` with explicit
  truncation (`% 2 ^ 32` and friends) exactly where the Rust code casts or
  saturates;
* fallible operations return `Except ClfError`;
* methods taking `&mut self` return the updated reader state alongside the
  result, with the `BufReader` cursor modeled as an explicit `cursor` field;
* the `HashMap` built by the manifest-parsing loop is kept as the list of
  parsed entries in file order; lookups take the entry inserted last
  (`HashMap::insert` replaces), and the key set is the set of distinct ids.
-/

namespace Clf

/-- Magic bytes at the start of every CLF file: "CLF1" (`format.rs`). -/
def CLF_MAGIC : List Nat := [0x43, 0x4C, 0x46, 0x31]

/-- Current format version written by the packer; readers reject greater
versions (`format.rs`). -/
def CLF_VERSION : Nat := 2

/-- Signature magic at end of file when a signature is present: "SIG0". -/
def SIG_MAGIC : List Nat := [0x53, 0x49, 0x47, 0x30]

/-- Length of the SHA-256 hash in the signature block. -/
def SIG_HASH_LEN : Nat := 32

/-- Total signature block size: magic + hash (`format.rs`). -/
def SIG_BLOCK_LEN : Nat := 4 + SIG_HASH_LEN

/-- CLF file kind (`format.rs`). -/
inductive ClfKind
  | Compute
  | MemoryMovement
  | MemoryProtection
deriving DecidableEq, Repr

/-- Default kind for v1 files (`ClfKind::default_for_v1`). -/
def ClfKind.default_for_v1 : ClfKind := .Compute

/-- Parse a kind from a byte; invalid values default to `Compute`
(`ClfKind::from_byte`). -/
def ClfKind.from_byte (b : Nat) : ClfKind :=
  if b = 1 then .MemoryMovement
  else if b = 2 then .MemoryProtection
  else .Compute

/-- Parsed CLF header (`format.rs`); `vendor` and `target` are kept as their
UTF-8 byte contents. -/
structure ClfHeader where
  version : Nat
  vendor : List Nat
  target : List Nat
  blob_alignment : Nat
  kind : ClfKind
  header_end : Nat
deriving DecidableEq, Repr

/-- Single manifest entry: op_id and (offset, size) into the blob store
(`format.rs`). All three fields are `u32` in the file. -/
structure ManifestEntry where
  op_id : Nat
  offset : Nat
  size : Nat
deriving DecidableEq, Repr

/-- Size of one manifest entry in the file (`ManifestEntry::ENTRY_SIZE`). -/
def ManifestEntry.ENTRY_SIZE : Nat := 4 + 4 + 4

/-- The two `std::io::ErrorKind`s the reader can produce itself: a short read
(`read_exact` hitting end of file) and the invalid-data error built in
`get_blob` for a manifest entry extending past the blob store. -/
inductive IoKind
  | unexpectedEof
  | invalidData
deriving DecidableEq, Repr

/-- Errors produced by the CLF reader (`reader.rs`, `ClfError`). -/
inductive ClfError
  | io (k : IoKind)
  | invalidMagic
  | unsupportedVersion (found max : Nat)
  | invalidVendorUtf8
  | signatureInvalid
  | missingOpId (id : Nat)
  | kindMismatch (expected actual : ClfKind)
deriving DecidableEq, Repr

/-- Policy when an op_id required by the caller is not present
(`MissingOpIdPolicy`). -/
inductive MissingOpIdPolicy
  | Fail
  | Skip
deriving DecidableEq, Repr

/-- Reader state (`struct ClfReader`): parsed header, manifest (in file parse
order, see module comment), the underlying file bytes, the `BufReader` cursor,
the blob-store bounds and the signature-verified flag. -/
structure ClfReader where
  header : ClfHeader
  manifest : List ManifestEntry
  file : List Nat
  cursor : Nat
  blob_store_offset : Nat
  blob_store_len : Nat
  signature_verified : Bool
deriving DecidableEq, Repr

instance instDecEqExcept {ε α : Type} [DecidableEq ε] [DecidableEq α] :
    DecidableEq (Except ε α) := fun a b =>
  match a, b with
  | .ok x, .ok y => if h : x = y then isTrue (by rw [h]) else isFalse (by simp [h])
  | .error x, .error y => if h : x = y then isTrue (by rw [h]) else isFalse (by simp [h])
  | .ok _, .error _ => isFalse (by simp)
  | .error _, .ok _ => isFalse (by simp)

/-- Allowed ranges of the continuation bytes demanded by a UTF-8 lead byte
(RFC 3629, as enforced by Rust's `String::from_utf8`); `none` marks an
invalid lead byte. -/
def utf8Ranges (b : Nat) : Option (List (Nat × Nat)) :=
  if b < 0x80 then some []
  else if b < 0xC2 then none
  else if b ≤ 0xDF then some [(0x80, 0xBF)]
  else if b = 0xE0 then some [(0xA0, 0xBF), (0x80, 0xBF)]
  else if b = 0xED then some [(0x80, 0x9F), (0x80, 0xBF)]
  else if b ≤ 0xEF then some [(0x80, 0xBF), (0x80, 0xBF)]
  else if b = 0xF0 then some [(0x90, 0xBF), (0x80, 0xBF), (0x80, 0xBF)]
  else if b = 0xF4 then some [(0x80, 0x8F), (0x80, 0xBF), (0x80, 0xBF)]
  else if b ≤ 0xF4 then some [(0x80, 0xBF), (0x80, 0xBF), (0x80, 0xBF)]
  else none

/-- One-byte-at-a-time UTF-8 acceptance: `pending` holds the ranges the next
continuation bytes must fall in. -/
def isValidUtf8Go : List (Nat × Nat) → List Nat → Bool
  | [], [] => true
  | _ :: _, [] => false
  | [], b :: rest =>
    match utf8Ranges b with
    | none => false
    | some pend => isValidUtf8Go pend rest
  | (lo, hi) :: pend, b :: rest =>
    decide (lo ≤ b ∧ b ≤ hi) && isValidUtf8Go pend rest

/-- UTF-8 validity of a byte sequence, as decided by `String::from_utf8`
(which `reader.rs` uses for the vendor and target strings). -/
def isValidUtf8 (l : List Nat) : Bool := isValidUtf8Go [] l

/-- Little-endian value of a byte list (bytes assumed < 256, as they are in a
real file). -/
def leNat : List Nat → Nat
  | [] => 0
  | b :: r => b + 256 * leNat r

/-- Little-endian 2-byte encoding of a `u16` value (`u16::to_le_bytes`). -/
def le16bytes (n : Nat) : List Nat := [n % 256, n / 256 % 256]

/-- Little-endian 4-byte encoding of a `u32` value (`u32::to_le_bytes`). -/
def le32bytes (n : Nat) : List Nat :=
  [n % 256, n / 256 % 256, n / 65536 % 256, n / 16777216 % 256]

/-- `read_exact` on a buffered reader, modeled on the not-yet-consumed suffix
of the file paired with the number of bytes consumed so far: returns the
bytes read and the advanced state, or the end-of-file error of a short read. -/
def readChunk (n : Nat) (s : List Nat × Nat) :
    Except ClfError (List Nat × (List Nat × Nat)) :=
  if n ≤ s.1.length then .ok (s.1.take n, (s.1.drop n, s.2 + n))
  else .error (.io .unexpectedEof)

/-- The manifest-reading loop of `ClfReader::open_with_expected_kind`: reads
`count` entries of 12 bytes each (op_id, offset, size, all `u32` LE). -/
def parseManifest : Nat → List Nat × Nat →
    Except ClfError (List ManifestEntry × (List Nat × Nat))
  | 0, s => .ok ([], s)
  | c + 1, s =>
    match readChunk 12 s with
    | .error e => .error e
    | .ok (bs, s1) =>
      match parseManifest c s1 with
      | .error e => .error e
      | .ok (es, s2) =>
        .ok (⟨leNat (bs.take 4), leNat ((bs.drop 4).take 4),
              leNat ((bs.drop 8).take 4)⟩ :: es, s2)

/-- Auto-detection of a trailing signature block at open time: the file is at
least 36 bytes long and its last 36 bytes begin with "SIG0" (`reader.rs`,
the `has_sig` probe). -/
def hasSigProbe (file : List Nat) : Bool :=
  decide (SIG_BLOCK_LEN ≤ file.length) &&
    decide ((file.drop (file.length - SIG_BLOCK_LEN)).take 4 = SIG_MAGIC)

/-- `ClfReader::open_with_expected_kind`: parse magic, version, vendor,
target, alignment, (v2) kind, then the manifest; record the blob-store bounds
after probing for a trailing signature. Mirrors `reader.rs` step for step;
note that the target length, target bytes and alignment byte are read for
every version — only the kind byte is gated on `version >= 2`. -/
def ClfReader.open_with_expected_kind (file : List Nat)
    (expected_kind : Option ClfKind) : Except ClfError ClfReader :=
  match readChunk 4 (file, 0) with
  | .error e => .error e
  | .ok (magic, s1) =>
  if magic ≠ CLF_MAGIC then .error .invalidMagic else
  match readChunk 1 s1 with
  | .error e => .error e
  | .ok (vb, s2) =>
  let version := vb.headI
  if version > CLF_VERSION then .error (.unsupportedVersion version CLF_VERSION) else
  match readChunk 4 s2 with
  | .error e => .error e
  | .ok (vlb, s3) =>
  match readChunk (leNat vlb) s3 with
  | .error e => .error e
  | .ok (vendor, s4) =>
  if ¬ isValidUtf8 vendor then .error .invalidVendorUtf8 else
  match readChunk 4 s4 with
  | .error e => .error e
  | .ok (tlb, s5) =>
  match readChunk (leNat tlb) s5 with
  | .error e => .error e
  | .ok (target, s6) =>
  if ¬ isValidUtf8 target then .error .invalidVendorUtf8 else
  match readChunk 1 s6 with
  | .error e => .error e
  | .ok (ab, s7) =>
  let blob_alignment := ab.headI
  match (if version ≥ 2 then
           match readChunk 1 s7 with
           | .error e => .error e
           | .ok (kb, s8) => .ok (ClfKind.from_byte kb.headI, s8)
         else .ok (ClfKind.default_for_v1, s7) :
         Except ClfError (ClfKind × (List Nat × Nat))) with
  | .error e => .error e
  | .ok (kind, s8) =>
  let header : ClfHeader :=
    ⟨version, vendor, target, blob_alignment, kind, s8.2⟩
  match expected_kind with
  | some expected =>
    if header.kind ≠ expected then
      .error (.kindMismatch expected header.kind)
    else openRest file header s8
  | none => openRest file header s8
where
  /-- The part of `open_with_expected_kind` after the expected-kind check:
  manifest, blob-store bounds, signature probe. -/
  openRest (file : List Nat) (header : ClfHeader) (s8 : List Nat × Nat) :
      Except ClfError ClfReader :=
    match readChunk 4 s8 with
    | .error e => .error e
    | .ok (neb, s9) =>
    match parseManifest (leNat neb) s9 with
    | .error e => .error e
    | .ok (manifest, s10) =>
    let blob_store_offset := s10.2
    let file_len := file.length
    let blob_store_len :=
      if hasSigProbe file then file_len - SIG_BLOCK_LEN - blob_store_offset
      else file_len - blob_store_offset
    .ok ⟨header, manifest, file, blob_store_offset, blob_store_offset,
         blob_store_len, false⟩

/-- `ClfReader::open`: open without kind validation. -/
def ClfReader.openClf (file : List Nat) : Except ClfError ClfReader :=
  ClfReader.open_with_expected_kind file none

/-- Lookup in the manifest `HashMap`: the entry inserted last for the key wins
(`HashMap::insert` replaces the previous value in the parse loop). -/
def mLookup (manifest : List ManifestEntry) (op_id : Nat) :
    Option ManifestEntry :=
  manifest.foldl (fun acc e => if e.op_id = op_id then some e else acc) none

/-- `ClfReader::get_blob`: look the op_id up; absent ids give `Ok(None)`; an
entry reaching past the blob store gives the invalid-data error before any
seek or read; otherwise seek to `blob_store_offset + offset` and `read_exact`
`size` bytes. -/
def ClfReader.get_blob (st : ClfReader) (op_id : Nat) :
    Except ClfError (Option (List Nat)) × ClfReader :=
  match mLookup st.manifest op_id with
  | none => (.ok none, st)
  | some e =>
    let start := st.blob_store_offset + e.offset
    let endPos := start + e.size
    if endPos > st.blob_store_offset + st.blob_store_len then
      (.error (.io .invalidData), st)
    else if start + e.size ≤ st.file.length then
      (.ok (some ((st.file.drop start).take e.size)),
       { st with cursor := start + e.size })
    else
      (.error (.io .unexpectedEof), { st with cursor := start })

/-- `ClfReader::verify_signature`, parametrized by the SHA-256 function of the
external `sha2` crate (the reader only compares its 32-byte output with the
stored hash). Returns `Ok(false)` for a missing block or wrong magic, the
distinct `SignatureInvalid` error for a present block whose hash differs, and
`Ok(true)` — setting the verified flag and re-seeking to the blob store —
when the hash over bytes `[0, file_len - 36)` matches. -/
def ClfReader.verify_signature (hash : List Nat → List Nat) (st : ClfReader) :
    Except ClfError Bool × ClfReader :=
  let file_len := st.file.length
  if file_len < SIG_BLOCK_LEN then
    (.ok false, { st with cursor := file_len })
  else
    let sig_block := (st.file.drop (file_len - SIG_BLOCK_LEN)).take SIG_BLOCK_LEN
    if sig_block.take 4 ≠ SIG_MAGIC then
      (.ok false, { st with cursor := file_len })
    else
      let data_len := file_len - SIG_BLOCK_LEN
      let computed := hash (st.file.take data_len)
      if computed ≠ sig_block.drop 4 then
        (.error .signatureInvalid, { st with cursor := data_len })
      else
        (.ok true, { st with cursor := st.blob_store_offset,
                             signature_verified := true })

/-- Insert into a sorted list (ascending). -/
def insertSorted (x : Nat) : List Nat → List Nat
  | [] => [x]
  | y :: r => if x ≤ y then x :: y :: r else y :: insertSorted x r

/-- Ascending sort of a list of naturals. -/
def sortNat (l : List Nat) : List Nat := l.foldr insertSorted []

/-- `ClfReader::op_ids`: the manifest's key set (one key per distinct op_id)
in ascending order. Takes `&self`, so the state is returned unchanged. -/
def ClfReader.op_ids (st : ClfReader) : List Nat × ClfReader :=
  (sortNat (st.manifest.map (·.op_id)).dedup, st)

/-- The loop of `ClfReader::build_code_section`: thread the reader state
through `get_blob` for each op_id in order, appending present blobs to the
accumulator. -/
def ClfReader.build_code_section_aux (st : ClfReader) (acc : List Nat) :
    List Nat → MissingOpIdPolicy → Except ClfError (List Nat) × ClfReader
  | [], _ => (.ok acc, st)
  | id :: rest, policy =>
    match st.get_blob id with
    | (.error e, st1) => (.error e, st1)
    | (.ok none, st1) =>
      if policy = .Fail then (.error (.missingOpId id), st1)
      else ClfReader.build_code_section_aux st1 acc rest policy
    | (.ok (some blob), st1) =>
      ClfReader.build_code_section_aux st1 (acc ++ blob) rest policy

/-- `ClfReader::build_code_section`: concatenate the blobs of `op_ids` in the
given order under the missing-id policy. -/
def ClfReader.build_code_section (st : ClfReader) (op_ids : List Nat)
    (policy : MissingOpIdPolicy) : Except ClfError (List Nat) × ClfReader :=
  ClfReader.build_code_section_aux st [] op_ids policy

/-- Errors produced by the packer (`packer.rs`). -/
inductive PackError
  | io
  | duplicateOpId (id : Nat)
  | vendorTooLong
deriving DecidableEq, Repr

/-- Options for building a .clf file (`packer.rs`, `struct PackOptions`): the
source structure has exactly these three fields — vendor (kept as UTF-8
bytes), version (`u8`) and the sign flag. -/
structure PackOptions where
  vendor : List Nat
  version : Nat
  sign : Bool
deriving DecidableEq, Repr

/-- `PackOptions::default()`: empty vendor, current version, unsigned. -/
def PackOptions.default : PackOptions := ⟨[], CLF_VERSION, false⟩

/-- The duplicate scan of `pack_clf`: walk the ids keeping a seen-set; the
first id already seen is returned. -/
def findDup : List Nat → List Nat → Option Nat
  | _, [] => none
  | seen, id :: rest =>
    if id ∈ seen then some id else findDup (id :: seen) rest

/-- `u32::saturating_add`. -/
def satAdd32 (a b : Nat) : Nat := min (a + b) (2 ^ 32 - 1)

/-- The manifest-writing loop of `pack_clf`: per entry op_id (`u16` LE),
running offset (`u32` LE), size (`u32` LE, the blob length truncated to
`u32`), with the offset advanced by `saturating_add`. -/
def packManifestLoop (offset : Nat) : List (Nat × List Nat) → List Nat
  | [] => []
  | (id, blob) :: rest =>
    le16bytes id ++ le32bytes offset ++ le32bytes (blob.length % 2 ^ 32) ++
      packManifestLoop (satAdd32 offset (blob.length % 2 ^ 32)) rest

/-- `pack_clf` (`packer.rs`): validate the vendor length (2-byte prefix, so
at most 65535) and the uniqueness of op_ids before anything is written; then
append to the sink, in order, magic, version byte, vendor length (`u16` LE),
vendor bytes, entry count (`u16` LE), the manifest entries and the blobs
back-to-back. The sink is threaded explicitly so that the failure cases show
it untouched; the Rust function's `u64` return value is the final sink
length. -/
def pack_clf (sink : List Nat) (entries : List (Nat × List Nat))
    (options : PackOptions) : Option PackError × List Nat :=
  if options.vendor.length > 65535 then (some .vendorTooLong, sink)
  else
    match findDup [] (entries.map (·.1)) with
    | some id => (some (.duplicateOpId id), sink)
    | none =>
      (none,
       sink ++ CLF_MAGIC ++ [options.version] ++
         le16bytes options.vendor.length ++ options.vendor ++
         le16bytes entries.length ++ packManifestLoop 0 entries ++
         (entries.map (·.2)).flatten)

/-- On-disk encoding of one manifest entry, as the reader's 12-byte layout
expects it: op_id, offset, size, each `u32` LE. -/
def encEntry (e : ManifestEntry) : List Nat :=
  le32bytes e.op_id ++ (le32bytes e.offset ++ le32bytes e.size)

/-- On-disk encoding of a manifest entry sequence. -/
def encManifest (es : List ManifestEntry) : List Nat :=
  (es.map encEntry).flatten

/-- All three fields of an entry fit in a `u32`. -/
def entryWF (e : ManifestEntry) : Bool :=
  decide (e.op_id < 2 ^ 32) && decide (e.offset < 2 ^ 32) && decide (e.size < 2 ^ 32)

/-- All entries of a manifest fit in `u32` fields. -/
def entriesWF (es : List ManifestEntry) : Bool := es.all entryWF

/-- A byte stream laid out exactly as `ClfReader::open_with_expected_kind`
parses a version-2 header: magic, version byte 2, vendor and target with
4-byte LE length prefixes, alignment byte, kind byte, 4-byte LE entry count,
12-byte manifest entries, then the blob store. -/
def mkContainerV2 (vendor target : List Nat) (align kindB : Nat)
    (es : List ManifestEntry) (blobStore : List Nat) : List Nat :=
  CLF_MAGIC ++ [2] ++ le32bytes vendor.length ++ vendor ++
    le32bytes target.length ++ target ++ [align] ++ [kindB] ++
    le32bytes es.length ++ encManifest es ++ blobStore

/-- A byte stream laid out exactly as the reader parses a version-1 header:
as `mkContainerV2` but with version byte 1 and no kind byte. The reader
consumes the target and alignment fields for version 1 too — only the kind
byte is version-gated. -/
def mkContainerV1 (vendor target : List Nat) (align : Nat)
    (es : List ManifestEntry) (blobStore : List Nat) : List Nat :=
  CLF_MAGIC ++ [1] ++ le32bytes vendor.length ++ vendor ++
    le32bytes target.length ++ target ++ [align] ++
    le32bytes es.length ++ encManifest es ++ blobStore

lemma le32bytes_length (x : Nat) : (le32bytes x).length = 4 := rfl

lemma le16bytes_length (x : Nat) : (le16bytes x).length = 2 := rfl

lemma CLF_MAGIC_length : CLF_MAGIC.length = 4 := rfl

lemma leNat_le32bytes (x : Nat) : leNat (le32bytes x) = x % 4294967296 := by
  simp [leNat, le32bytes]
  omega

lemma encEntry_length (e : ManifestEntry) : (encEntry e).length = 12 := by
  simp [encEntry, le32bytes]

lemma encManifest_length (es : List ManifestEntry) :
    (encManifest es).length = 12 * es.length := by
  induction es with
  | nil => simp [encManifest]
  | cons e es ih =>
    simp [encManifest] at ih ⊢
    simp [encEntry_length, ih]
    ring

lemma readChunk_exact {n : Nat} (mid post : List Nat) (p : Nat)
    (h : mid.length = n) :
    readChunk n (mid ++ post, p) = .ok (mid, (post, p + n)) := by
  subst h
  simp [readChunk, List.take_left, List.drop_left]

lemma readChunk_one (b : Nat) (rest : List Nat) (p : Nat) :
    readChunk 1 (b :: rest, p) = .ok ([b], (rest, p + 1)) := by
  simp [readChunk]

lemma encEntry_take4 (e : ManifestEntry) :
    (encEntry e).take 4 = le32bytes e.op_id := by
  rw [encEntry, show (4 : Nat) = (le32bytes e.op_id).length from rfl,
    List.take_left]

lemma encEntry_drop4_take4 (e : ManifestEntry) :
    ((encEntry e).drop 4).take 4 = le32bytes e.offset := by
  rw [encEntry, show (4 : Nat) = (le32bytes e.op_id).length from rfl,
    List.drop_left, show (le32bytes e.op_id).length = (le32bytes e.offset).length from rfl,
    List.take_left]

lemma encEntry_drop8_take4 (e : ManifestEntry) :
    ((encEntry e).drop 8).take 4 = le32bytes e.size := by
  rw [encEntry, ← List.append_assoc,
    show (8 : Nat) = (le32bytes e.op_id ++ le32bytes e.offset).length from rfl,
    List.drop_left, show (4 : Nat) = (le32bytes e.size).length from rfl,
    List.take_length]

lemma parseManifest_enc (es : List ManifestEntry) (post : List Nat) (p : Nat)
    (h : entriesWF es = true) :
    parseManifest es.length (encManifest es ++ post, p) =
      .ok (es, (post, p + 12 * es.length)) := by
  induction es generalizing p with
  | nil => simp [parseManifest, encManifest]
  | cons e es ih =>
    have he : entryWF e = true := by
      simp [entriesWF] at h
      simp [h.1]
    have hes : entriesWF es = true := by
      simp [entriesWF] at h ⊢
      exact h.2
    have hb : encManifest (e :: es) ++ post =
        encEntry e ++ (encManifest es ++ post) := by
      simp [encManifest]
    rw [show (e :: es).length = es.length + 1 from rfl]
    rw [parseManifest, hb, readChunk_exact (encEntry e) _ p (encEntry_length e)]
    simp only [ih _ hes]
    simp [encEntry_take4, encEntry_drop4_take4, encEntry_drop8_take4,
      leNat_le32bytes]
    simp [entryWF] at he
    constructor
    · rw [Nat.mod_eq_of_lt he.1.1, Nat.mod_eq_of_lt he.1.2, Nat.mod_eq_of_lt he.2]
    · omega

/-- Parsing a version-2 container laid out as the reader expects: open
succeeds and yields exactly the encoded header fields, manifest and
blob-store bounds. -/
lemma open_mkContainerV2 (vendor target blobStore : List Nat) (align kindB : Nat)
    (es : List ManifestEntry)
    (hv : isValidUtf8 vendor = true) (ht : isValidUtf8 target = true)
    (hvl : vendor.length < 4294967296) (htl : target.length < 4294967296)
    (hel : es.length < 4294967296) (hes : entriesWF es = true)
    (hns : hasSigProbe (mkContainerV2 vendor target align kindB es blobStore) = false) :
    ClfReader.open_with_expected_kind (mkContainerV2 vendor target align kindB es blobStore) none =
      .ok ⟨⟨2, vendor, target, align, ClfKind.from_byte kindB,
            15 + vendor.length + target.length⟩,
           es, mkContainerV2 vendor target align kindB es blobStore,
           19 + vendor.length + target.length + 12 * es.length,
           19 + vendor.length + target.length + 12 * es.length,
           blobStore.length, false⟩ := by
  simp [mkContainerV2] at hns
  simp [mkContainerV2, ClfReader.open_with_expected_kind, readChunk_exact, readChunk_one,
    CLF_MAGIC_length, le32bytes_length, leNat_le32bytes, CLF_VERSION,
    List.headI, Nat.mod_eq_of_lt hvl, Nat.mod_eq_of_lt htl, Nat.mod_eq_of_lt hel,
    hv, ht, hes, hns, ClfReader.open_with_expected_kind.openRest,
    parseManifest_enc, encManifest_length]
  omega

/-- Parsing a version-1 container laid out as the reader actually consumes it:
the target string and alignment byte are still read from the file (they are
not version-gated in `reader.rs`); only the kind byte is absent, and the kind
is synthesized as `Compute`. -/
lemma open_mkContainerV1 (vendor target blobStore : List Nat) (align : Nat)
    (es : List ManifestEntry)
    (hv : isValidUtf8 vendor = true) (ht : isValidUtf8 target = true)
    (hvl : vendor.length < 4294967296) (htl : target.length < 4294967296)
    (hel : es.length < 4294967296) (hes : entriesWF es = true)
    (hns : hasSigProbe (mkContainerV1 vendor target align es blobStore) = false) :
    ClfReader.open_with_expected_kind (mkContainerV1 vendor target align es blobStore) none =
      .ok ⟨⟨1, vendor, target, align, ClfKind.default_for_v1,
            14 + vendor.length + target.length⟩,
           es, mkContainerV1 vendor target align es blobStore,
           18 + vendor.length + target.length + 12 * es.length,
           18 + vendor.length + target.length + 12 * es.length,
           blobStore.length, false⟩ := by
  simp [mkContainerV1] at hns
  simp [mkContainerV1, ClfReader.open_with_expected_kind, readChunk_exact, readChunk_one,
    CLF_MAGIC_length, le32bytes_length, leNat_le32bytes, CLF_VERSION,
    List.headI, Nat.mod_eq_of_lt hvl, Nat.mod_eq_of_lt htl, Nat.mod_eq_of_lt hel,
    hv, ht, hes, hns, ClfReader.open_with_expected_kind.openRest,
    parseManifest_enc, encManifest_length]
  omega

lemma get_blob_absent (st : ClfReader) (id : Nat)
    (h : mLookup st.manifest id = none) : st.get_blob id = (.ok none, st) := by
  unfold ClfReader.get_blob
  rw [h]

lemma get_blob_oob (st : ClfReader) (e : ManifestEntry) (id : Nat)
    (h : mLookup st.manifest id = some e)
    (h1 : st.blob_store_len < e.offset + e.size) :
    st.get_blob id = (.error (.io .invalidData), st) := by
  unfold ClfReader.get_blob
  rw [h]
  simp only []
  rw [if_pos (by omega)]

lemma get_blob_present (st : ClfReader) (e : ManifestEntry) (id : Nat)
    (h : mLookup st.manifest id = some e)
    (h1 : e.offset + e.size ≤ st.blob_store_len)
    (h2 : st.blob_store_offset + st.blob_store_len ≤ st.file.length) :
    st.get_blob id =
      (.ok (some ((st.file.drop (st.blob_store_offset + e.offset)).take e.size)),
       { st with cursor := st.blob_store_offset + e.offset + e.size }) := by
  unfold ClfReader.get_blob
  rw [h]
  simp only []
  rw [if_neg (by omega), if_pos (by omega)]

lemma mLookup_mem (m : List ManifestEntry) (id : Nat) (e : ManifestEntry)
    (h : mLookup m id = some e) : e ∈ m ∧ e.op_id = id := by
  have key : ∀ (l : List ManifestEntry) (acc : Option ManifestEntry),
      l.foldl (fun acc x => if x.op_id = id then some x else acc) acc = some e →
      (e ∈ l ∧ e.op_id = id) ∨ acc = some e := by
    intro l
    induction l with
    | nil => intro acc h'; right; exact h'
    | cons x l ih =>
      intro acc h'
      rw [List.foldl_cons] at h'
      rcases ih _ h' with h'' | h''
      · exact Or.inl ⟨List.mem_cons_of_mem _ h''.1, h''.2⟩
      · by_cases hx : x.op_id = id
        · rw [if_pos hx] at h''
          have hxe : x = e := Option.some_inj.mp h''
          subst hxe
          exact Or.inl ⟨List.mem_cons_self _ _, hx⟩
        · rw [if_neg hx] at h''
          exact Or.inr h''
  rcases key m none h with h' | h'
  · exact h'
  · simp at h'

/-- The immutable-after-open part of the reader state: parsed header,
manifest, file bytes and blob-store bounds. -/
def readerCore (st : ClfReader) :
    ClfHeader × List ManifestEntry × List Nat × Nat × Nat :=
  (st.header, st.manifest, st.file, st.blob_store_offset, st.blob_store_len)

lemma get_blob_frame (st : ClfReader) (id : Nat) :
    readerCore (st.get_blob id).2 = readerCore st ∧
    (st.get_blob id).2.signature_verified = st.signature_verified := by
  unfold ClfReader.get_blob
  cases mLookup st.manifest id with
  | none => simp
  | some e =>
    simp only []
    split
    · simp
    · split <;> simp [readerCore]

lemma verify_signature_frame (hash : List Nat → List Nat) (st : ClfReader) :
    readerCore (ClfReader.verify_signature hash st).2 = readerCore st := by
  unfold ClfReader.verify_signature
  simp only []
  split
  · simp [readerCore]
  · split
    · simp [readerCore]
    · split <;> simp [readerCore]

lemma verify_signature_flag (hash : List Nat → List Nat) (st : ClfReader) :
    (ClfReader.verify_signature hash st).2.signature_verified =
      (st.signature_verified ||
        decide ((ClfReader.verify_signature hash st).1 = .ok true)) := by
  unfold ClfReader.verify_signature
  simp only []
  split
  · simp
  · split
    · simp
    · split <;> simp

lemma build_code_section_aux_frame :
    ∀ (ids : List Nat) (st : ClfReader) (acc : List Nat)
      (policy : MissingOpIdPolicy),
      readerCore (ClfReader.build_code_section_aux st acc ids policy).2 =
          readerCore st ∧
        (ClfReader.build_code_section_aux st acc ids policy).2.signature_verified =
          st.signature_verified := by
  intro ids
  induction ids with
  | nil => intro st acc policy; simp [ClfReader.build_code_section_aux]
  | cons id rest ih =>
    intro st acc policy
    have hf := get_blob_frame st id
    unfold ClfReader.build_code_section_aux
    rcases hgb : st.get_blob id with ⟨r, st1⟩
    rw [hgb] at hf
    match r with
    | .error e => exact hf
    | .ok none =>
      simp only []
      by_cases hp : policy = .Fail
      · rw [if_pos hp]; exact hf
      · rw [if_neg hp]
        have := ih st1 acc policy
        exact ⟨this.1.trans hf.1, this.2.trans hf.2⟩
    | .ok (some blob) =>
      have := ih st1 (acc ++ blob) policy
      exact ⟨this.1.trans hf.1, this.2.trans hf.2⟩

/-- The bytes `get_blob` serves for an id out of the current reader state:
the last manifest entry for the id locates `size` bytes at
`blob_store_offset + offset` in the file. -/
def storedBytes (st : ClfReader) (id : Nat) : Option (List Nat) :=
  (mLookup st.manifest id).map
    (fun e => (st.file.drop (st.blob_store_offset + e.offset)).take e.size)

lemma storedBytes_cursor (st : ClfReader) (c : Nat) :
    storedBytes { st with cursor := c } = storedBytes st := rfl

lemma bcs_aux_skip :
    ∀ (ids : List Nat) (st : ClfReader) (acc : List Nat),
      (∀ e ∈ st.manifest, e.offset + e.size ≤ st.blob_store_len) →
      st.blob_store_offset + st.blob_store_len ≤ st.file.length →
      (ClfReader.build_code_section_aux st acc ids .Skip).1 =
        .ok (acc ++ (ids.filterMap (storedBytes st)).flatten) := by
  intro ids
  induction ids with
  | nil => intro st acc hwf hfl; simp [ClfReader.build_code_section_aux]
  | cons id rest ih =>
    intro st acc hwf hfl
    unfold ClfReader.build_code_section_aux
    cases hm : mLookup st.manifest id with
    | none =>
      rw [get_blob_absent st id hm]
      simp only []
      rw [if_neg (by simp)]
      rw [ih st acc hwf hfl]
      simp [storedBytes, hm]
    | some e =>
      have hmem := mLookup_mem st.manifest id e hm
      have hb := hwf e hmem.1
      rw [get_blob_present st e id hm hb hfl]
      simp only []
      rw [ih _ (acc ++ _) (by simpa using hwf) (by simpa using hfl)]
      simp [storedBytes, hm, List.append_assoc, storedBytes_cursor]

lemma bcs_aux_fail_all_present :
    ∀ (ids : List Nat) (st : ClfReader) (acc : List Nat),
      (∀ e ∈ st.manifest, e.offset + e.size ≤ st.blob_store_len) →
      st.blob_store_offset + st.blob_store_len ≤ st.file.length →
      (∀ j ∈ ids, (mLookup st.manifest j).isSome = true) →
      (ClfReader.build_code_section_aux st acc ids .Fail).1 =
        .ok (acc ++ (ids.filterMap (storedBytes st)).flatten) := by
  intro ids
  induction ids with
  | nil => intro st acc hwf hfl hall; simp [ClfReader.build_code_section_aux]
  | cons id rest ih =>
    intro st acc hwf hfl hall
    unfold ClfReader.build_code_section_aux
    have hid := hall id (List.mem_cons_self _ _)
    cases hm : mLookup st.manifest id with
    | none => rw [hm] at hid; simp at hid
    | some e =>
      have hmem := mLookup_mem st.manifest id e hm
      have hb := hwf e hmem.1
      rw [get_blob_present st e id hm hb hfl]
      simp only []
      rw [ih _ (acc ++ _) (by simpa using hwf) (by simpa using hfl)
        (by intro j hj; simpa using hall j (List.mem_cons_of_mem _ hj))]
      simp [storedBytes, hm, List.append_assoc, storedBytes_cursor]

lemma bcs_aux_fail_missing :
    ∀ (pre : List Nat) (st : ClfReader) (acc : List Nat) (m : Nat)
      (rest : List Nat),
      (∀ e ∈ st.manifest, e.offset + e.size ≤ st.blob_store_len) →
      st.blob_store_offset + st.blob_store_len ≤ st.file.length →
      (∀ j ∈ pre, (mLookup st.manifest j).isSome = true) →
      mLookup st.manifest m = none →
      (ClfReader.build_code_section_aux st acc (pre ++ m :: rest) .Fail).1 =
        .error (.missingOpId m) := by
  intro pre
  induction pre with
  | nil =>
    intro st acc m rest hwf hfl hall hm
    rw [List.nil_append]
    unfold ClfReader.build_code_section_aux
    rw [get_blob_absent st m hm]
    simp
  | cons j pre ih =>
    intro st acc m rest hwf hfl hall hm
    have hj := hall j (List.mem_cons_self _ _)
    cases hmj : mLookup st.manifest j with
    | none => rw [hmj] at hj; simp at hj
    | some e =>
      have hmem := mLookup_mem st.manifest j e hmj
      have hb := hwf e hmem.1
      rw [List.cons_append]
      unfold ClfReader.build_code_section_aux
      rw [get_blob_present st e j hmj hb hfl]
      simp only []
      exact ih _ (acc ++ _) m rest (by simpa using hwf) (by simpa using hfl)
        (by intro x hx; simpa using hall x (List.mem_cons_of_mem _ hx))
        (by simpa using hm)

lemma findDup_some_mem :
    ∀ (ids seen : List Nat) (d : Nat), findDup seen ids = some d →
      (d ∈ seen ∧ d ∈ ids) ∨ 2 ≤ ids.count d := by
  intro ids
  induction ids with
  | nil => intro seen d h; simp [findDup] at h
  | cons id rest ih =>
    intro seen d h
    unfold findDup at h
    by_cases hs : id ∈ seen
    · rw [if_pos hs] at h
      have hd : id = d := Option.some_inj.mp h
      subst hd
      exact Or.inl ⟨hs, List.mem_cons_self _ _⟩
    · rw [if_neg hs] at h
      rcases ih _ _ h with ⟨h1, h2⟩ | h1
      · rcases List.mem_cons.mp h1 with h3 | h3
        · subst h3
          right
          have : 1 ≤ rest.count d := List.count_pos_iff.mpr h2
          rw [List.count_cons_self]
          omega
        · exact Or.inl ⟨h3, List.mem_cons_of_mem _ h2⟩
      · right
        rw [List.count_cons]
        omega

lemma findDup_none_nodup :
    ∀ (ids seen : List Nat), findDup seen ids = none →
      ids.Nodup ∧ ∀ x ∈ seen, x ∉ ids := by
  intro ids
  induction ids with
  | nil => intro seen h; simp
  | cons id rest ih =>
    intro seen h
    unfold findDup at h
    by_cases hs : id ∈ seen
    · rw [if_pos hs] at h; simp at h
    · rw [if_neg hs] at h
      rcases ih _ h with ⟨h1, h2⟩
      have hidr : id ∉ rest := h2 id (List.mem_cons_self _ _)
      refine ⟨List.nodup_cons.mpr ⟨hidr, h1⟩, ?_⟩
      intro x hx
      have hxr : x ∉ rest := h2 x (List.mem_cons_of_mem _ hx)
      intro hmem
      rcases List.mem_cons.mp hmem with h3 | h3
      · subst h3; exact hs hx
      · exact hxr h3

lemma mLookup_no_match (l : List ManifestEntry) (k : Nat)
    (acc : Option ManifestEntry) (h : ∀ x ∈ l, x.op_id ≠ k) :
    l.foldl (fun acc e => if e.op_id = k then some e else acc) acc = acc := by
  induction l generalizing acc with
  | nil => rfl
  | cons x l ih =>
    rw [List.foldl_cons]
    have hx : x.op_id ≠ k := h x (List.mem_cons_self _ _)
    rw [if_neg hx]
    exact ih acc (fun y hy => h y (List.mem_cons_of_mem _ hy))

lemma mLookup_last (l₁ l₂ : List ManifestEntry) (e : ManifestEntry) (k : Nat)
    (hk : e.op_id = k) (h2 : ∀ x ∈ l₂, x.op_id ≠ k) :
    mLookup (l₁ ++ e :: l₂) k = some e := by
  unfold mLookup
  rw [List.foldl_append, List.foldl_cons, if_pos hk]
  exact mLookup_no_match l₂ k (some e) h2

/-- C5 (bounds safety): for every reader state and op_id whose manifest
lookup yields an entry, if `offset + size` exceeds the blob-store length then
`get_blob` fails with the data-corruption error and leaves the state
untouched (no seek, no read); and if `offset + size` is within the blob store
(and the blob store lies within the file, as `open` guarantees), `get_blob`
reads exactly `size` bytes starting at `blob_store_offset + offset`. -/
theorem get_blob_bounds_safety (st : ClfReader) (op_id : Nat)
    (e : ManifestEntry) (h : mLookup st.manifest op_id = some e) :
    (st.blob_store_len < e.offset + e.size →
      st.get_blob op_id = (.error (.io .invalidData), st)) ∧
    (e.offset + e.size ≤ st.blob_store_len →
      st.blob_store_offset + st.blob_store_len ≤ st.file.length →
      st.get_blob op_id =
        (.ok (some ((st.file.drop (st.blob_store_offset + e.offset)).take e.size)),
         { st with cursor := st.blob_store_offset + e.offset + e.size })) :=
  ⟨fun h1 => get_blob_oob st e op_id h h1,
   fun h1 h2 => get_blob_present st e op_id h h1 h2⟩

/-- A concrete reader state used to witness the bounds-safety theorem: op_id
5 is in bounds, op_id 9 reaches past the blob store. -/
def c5reader : ClfReader :=
  ⟨⟨2, [], [], 0, .Compute, 15⟩, [⟨5, 0, 2⟩, ⟨9, 1, 99⟩],
   [67,76,70,49, 2, 0,0,0,0, 0,0,0,0, 0, 0, 1,0,0,0, 5,0,0,0, 0,0,0,0, 2,0,0,0, 171, 205],
   31, 31, 2, false⟩

/-- Witness for the bounds-safety theorem at a concrete reader. -/
theorem get_blob_bounds_safety_witness :
    c5reader.get_blob 5 = (.ok (some [171, 205]), { c5reader with cursor := 33 }) ∧
    c5reader.get_blob 9 = (.error (.io .invalidData), c5reader) := by
  constructor
  · have h := (get_blob_bounds_safety c5reader 5 ⟨5, 0, 2⟩ (by decide)).2
      (by decide) (by decide)
    rw [h]
    decide
  · exact (get_blob_bounds_safety c5reader 9 ⟨9, 1, 99⟩ (by decide)).1 (by decide)

/-- C7 (packer validation precedes output): a vendor longer than the 2-byte
length prefix allows fails with `VendorTooLong`, and duplicate op_ids fail
with `DuplicateOpId` naming an identifier that occurs at least twice; in both
cases the output sink is returned exactly as it was (nothing written). -/
theorem pack_clf_validation (sink : List Nat) (entries : List (Nat × List Nat))
    (options : PackOptions) :
    (65535 < options.vendor.length →
      pack_clf sink entries options = (some .vendorTooLong, sink)) ∧
    (options.vendor.length ≤ 65535 → ¬ (entries.map (·.1)).Nodup →
      ∃ d, pack_clf sink entries options = (some (.duplicateOpId d), sink) ∧
        2 ≤ (entries.map (·.1)).count d) := by
  constructor
  · intro h
    unfold pack_clf
    rw [if_pos h]
  · intro h hd
    unfold pack_clf
    rw [if_neg (by omega)]
    cases hf : findDup [] (entries.map (·.1)) with
    | none => exact absurd (findDup_none_nodup _ _ hf).1 hd
    | some d =>
      refine ⟨d, rfl, ?_⟩
      rcases findDup_some_mem _ _ _ hf with ⟨h1, _⟩ | h1
      · simp at h1
      · exact h1

/-- Witness for the packer-validation theorem: an oversized vendor and a
duplicated op_id, both leaving the empty sink empty. -/
theorem pack_clf_validation_witness :
    pack_clf [] [] ⟨List.replicate 65536 0, 2, false⟩ = (some .vendorTooLong, []) ∧
    ∃ d, pack_clf [] [(1, ([] : List Nat)), (1, [])] PackOptions.default =
        (some (.duplicateOpId d), []) ∧
      2 ≤ ([(1, ([] : List Nat)), (1, [])].map (·.1)).count d := by
  constructor
  · exact (pack_clf_validation [] [] ⟨List.replicate 65536 0, 2, false⟩).1
      (by rw [List.length_replicate]; omega)
  · exact (pack_clf_validation [] [(1, ([] : List Nat)), (1, [])] PackOptions.default).2
      (by decide) (by decide)

/-- C8 (build_code_section): under success the result is exactly the
concatenation, in input order (no reordering, deduplication or sorting), of
the stored bytes of each present identifier; under `Fail` a missing
identifier aborts the whole operation with `MissingOpId` naming it and no
bytes are returned; under `Skip` a missing identifier contributes nothing
and processing continues. The two hypotheses hold for every opened reader:
every manifest entry within the blob store, and the blob store within the
file. -/
theorem build_code_section_spec (st : ClfReader) (ids : List Nat)
    (hwf : ∀ e ∈ st.manifest, e.offset + e.size ≤ st.blob_store_len)
    (hfl : st.blob_store_offset + st.blob_store_len ≤ st.file.length) :
    ((st.build_code_section ids .Skip).1 =
        .ok ((ids.filterMap (storedBytes st)).flatten)) ∧
    ((∀ j ∈ ids, (mLookup st.manifest j).isSome = true) →
      (st.build_code_section ids .Fail).1 =
        .ok ((ids.filterMap (storedBytes st)).flatten)) ∧
    (∀ pre m rest, ids = pre ++ m :: rest →
      (∀ j ∈ pre, (mLookup st.manifest j).isSome = true) →
      mLookup st.manifest m = none →
      (st.build_code_section ids .Fail).1 = .error (.missingOpId m)) := by
  refine ⟨?_, ?_, ?_⟩
  · have h := bcs_aux_skip ids st [] hwf hfl
    simpa [ClfReader.build_code_section] using h
  · intro hall
    have h := bcs_aux_fail_all_present ids st [] hwf hfl hall
    simpa [ClfReader.build_code_section] using h
  · intro pre m rest hids hall hm
    subst hids
    have h := bcs_aux_fail_missing pre st [] m rest hwf hfl hall hm
    simpa [ClfReader.build_code_section] using h

/-- A concrete reader for the build_code_section witness: op 1 stores `[10]`,
op 50 stores `[20, 30]`. -/
def c8reader : ClfReader :=
  ⟨⟨2, [], [], 0, .Compute, 15⟩, [⟨1, 0, 1⟩, ⟨50, 1, 2⟩], [10, 20, 30], 0, 0, 3, false⟩

/-- Witness for the build_code_section theorem: input order is kept (50
before 1), a missing id 99 aborts under Fail naming 99, and is skipped under
Skip. -/
theorem build_code_section_spec_witness :
    (c8reader.build_code_section [50, 1] .Skip).1 = .ok [20, 30, 10] ∧
    (c8reader.build_code_section [50, 1] .Fail).1 = .ok [20, 30, 10] ∧
    (c8reader.build_code_section [1, 99] .Fail).1 = .error (.missingOpId 99) ∧
    (c8reader.build_code_section [99, 1] .Skip).1 = .ok [10] := by
  refine ⟨?_, ?_, ?_, ?_⟩
  · have h := (build_code_section_spec c8reader [50, 1] (by decide) (by decide)).1
    rw [h]
    decide
  · have h := (build_code_section_spec c8reader [50, 1] (by decide) (by decide)).2.1
      (by decide)
    rw [h]
    decide
  · exact (build_code_section_spec c8reader [1, 99] (by decide) (by decide)).2.2
      [1] 99 [] rfl (by decide) (by decide)
  · have h := (build_code_section_spec c8reader [99, 1] (by decide) (by decide)).1
    rw [h]
    decide

/-- C10 (frame): `get_blob`, `op_ids`, `build_code_section` and
`verify_signature` never change the parsed header, the manifest, the file,
or the blob-store bounds (`readerCore`); `get_blob`, `op_ids` and
`build_code_section` also leave the signature-verified flag alone, and
`verify_signature` sets it exactly when it returns `Ok(true)` (the cursor is
the only other mutable component, by construction of the state type). -/
theorem reader_frame_spec (st : ClfReader) (id : Nat) (ids : List Nat)
    (policy : MissingOpIdPolicy) (hash : List Nat → List Nat) :
    readerCore (st.get_blob id).2 = readerCore st ∧
    (st.get_blob id).2.signature_verified = st.signature_verified ∧
    (st.op_ids).2 = st ∧
    readerCore (st.build_code_section ids policy).2 = readerCore st ∧
    (st.build_code_section ids policy).2.signature_verified =
      st.signature_verified ∧
    readerCore (ClfReader.verify_signature hash st).2 = readerCore st ∧
    (ClfReader.verify_signature hash st).2.signature_verified =
      (st.signature_verified ||
        decide ((ClfReader.verify_signature hash st).1 = .ok true)) :=
  ⟨(get_blob_frame st id).1, (get_blob_frame st id).2, rfl,
   (build_code_section_aux_frame ids st [] policy).1,
   (build_code_section_aux_frame ids st [] policy).2,
   verify_signature_frame hash st, verify_signature_flag hash st⟩

/-- C6 (signature trichotomy): `verify_signature` returns `Ok(false)` when
the file is shorter than the 36-byte signature block or the 4 bytes at
position `file_length - 36` are not the signature magic; returns `Ok(true)`
and sets the verified flag when the magic matches and the stored 32-byte
hash equals the hash of bytes `[0, file_length - 36)`; and returns the
distinct `SignatureInvalid` error when the magic matches but the hash
differs. `hash` stands for the external crate's SHA-256. -/
theorem verify_signature_trichotomy (hash : List Nat → List Nat)
    (st : ClfReader) :
    (st.file.length < SIG_BLOCK_LEN →
      (ClfReader.verify_signature hash st).1 = .ok false) ∧
    (SIG_BLOCK_LEN ≤ st.file.length →
      (st.file.drop (st.file.length - SIG_BLOCK_LEN)).take 4 ≠ SIG_MAGIC →
      (ClfReader.verify_signature hash st).1 = .ok false) ∧
    (SIG_BLOCK_LEN ≤ st.file.length →
      (st.file.drop (st.file.length - SIG_BLOCK_LEN)).take 4 = SIG_MAGIC →
      hash (st.file.take (st.file.length - SIG_BLOCK_LEN)) =
        (st.file.drop (st.file.length - SIG_HASH_LEN)).take SIG_HASH_LEN →
      ClfReader.verify_signature hash st =
        (.ok true, { st with cursor := st.blob_store_offset,
                             signature_verified := true })) ∧
    (SIG_BLOCK_LEN ≤ st.file.length →
      (st.file.drop (st.file.length - SIG_BLOCK_LEN)).take 4 = SIG_MAGIC →
      hash (st.file.take (st.file.length - SIG_BLOCK_LEN)) ≠
        (st.file.drop (st.file.length - SIG_HASH_LEN)).take SIG_HASH_LEN →
      (ClfReader.verify_signature hash st).1 = .error .signatureInvalid) := by
  have hmagic : ((st.file.drop (st.file.length - SIG_BLOCK_LEN)).take SIG_BLOCK_LEN).take 4 =
      (st.file.drop (st.file.length - SIG_BLOCK_LEN)).take 4 := by
    rw [List.take_take]
    norm_num [SIG_BLOCK_LEN, SIG_HASH_LEN]
  have hstored : ∀ h1 : SIG_BLOCK_LEN ≤ st.file.length,
      ((st.file.drop (st.file.length - SIG_BLOCK_LEN)).take SIG_BLOCK_LEN).drop 4 =
      (st.file.drop (st.file.length - SIG_HASH_LEN)).take SIG_HASH_LEN := by
    intro h1
    rw [List.drop_take, List.drop_drop]
    have e1 : st.file.length - SIG_BLOCK_LEN + 4 = st.file.length - SIG_HASH_LEN := by
      simp [SIG_BLOCK_LEN, SIG_HASH_LEN] at h1 ⊢
      omega
    have e2 : SIG_BLOCK_LEN - 4 = SIG_HASH_LEN := by decide
    rw [e1, e2]
  refine ⟨?_, ?_, ?_, ?_⟩
  · intro h1
    unfold ClfReader.verify_signature
    rw [if_pos h1]
  · intro h1 h2
    unfold ClfReader.verify_signature
    rw [if_neg (not_lt.mpr h1)]
    simp only []
    rw [hmagic, if_pos h2]
  · intro h1 h2 h3
    unfold ClfReader.verify_signature
    rw [if_neg (not_lt.mpr h1)]
    simp only []
    rw [hmagic, if_neg (by simp [h2]), hstored h1, if_neg (by simp [h3])]
  · intro h1 h2 h3
    unfold ClfReader.verify_signature
    rw [if_neg (not_lt.mpr h1)]
    simp only []
    rw [hmagic, if_neg (by simp [h2]), hstored h1, if_pos h3]
/-- A stand-in for the external SHA-256 function in witnesses: 32 bytes
derived from the input length. The trichotomy theorem holds for every hash
function. -/
def c6hash (l : List Nat) : List Nat := List.replicate 32 (l.length % 256)

/-- Unsigned (too short) reader for the signature witness. -/
def c6short : ClfReader := ⟨⟨2, [], [], 0, .Compute, 15⟩, [], [1, 2], 0, 0, 0, false⟩

/-- A 38-byte file whose trailing block lacks the signature magic. -/
def c6nomagic : ClfReader :=
  ⟨⟨2, [], [], 0, .Compute, 15⟩, [], [1, 2] ++ [0, 0, 0, 0] ++ List.replicate 32 0,
   0, 0, 0, false⟩

/-- A signed, unmodified file: stored hash equals `c6hash` of the data. -/
def c6good : ClfReader :=
  ⟨⟨2, [], [], 0, .Compute, 15⟩, [], [1, 2] ++ SIG_MAGIC ++ List.replicate 32 2,
   0, 0, 0, false⟩

/-- A signed file whose stored hash does not match. -/
def c6bad : ClfReader :=
  ⟨⟨2, [], [], 0, .Compute, 15⟩, [], [1, 2] ++ SIG_MAGIC ++ List.replicate 32 9,
   0, 0, 0, false⟩

/-- Witness for the signature trichotomy at the four concrete readers. -/
theorem verify_signature_trichotomy_witness :
    (ClfReader.verify_signature c6hash c6short).1 = .ok false ∧
    (ClfReader.verify_signature c6hash c6nomagic).1 = .ok false ∧
    ClfReader.verify_signature c6hash c6good =
      (.ok true, { c6good with cursor := 0, signature_verified := true }) ∧
    (ClfReader.verify_signature c6hash c6bad).1 = .error .signatureInvalid := by
  refine ⟨?_, ?_, ?_, ?_⟩
  · exact (verify_signature_trichotomy c6hash c6short).1 (by decide)
  · exact (verify_signature_trichotomy c6hash c6nomagic).2.1 (by decide) (by decide)
  · have h := (verify_signature_trichotomy c6hash c6good).2.2.1 (by decide)
      (by decide) (by decide)
    rw [h]
    decide
  · exact (verify_signature_trichotomy c6hash c6bad).2.2.2 (by decide) (by decide)
      (by decide)

/-- C2 (as amended): opening a version-1 container parses the target string
(4-byte length prefix) and the blob-alignment byte from the file exactly as
for version 2 — these fields are not version-gated in `reader.rs`; only the
kind byte is absent from a v1 header, and the kind is synthesized as
`Compute`. The header therefore reports the stored target and alignment, and
`header_end` shows no kind byte was consumed. -/
theorem open_v1_reads_target_and_alignment (vendor target blobStore : List Nat)
    (align : Nat) (es : List ManifestEntry)
    (hv : isValidUtf8 vendor = true) (ht : isValidUtf8 target = true)
    (hvl : vendor.length < 4294967296) (htl : target.length < 4294967296)
    (hel : es.length < 4294967296) (hes : entriesWF es = true)
    (hns : hasSigProbe (mkContainerV1 vendor target align es blobStore) = false) :
    ClfReader.open_with_expected_kind (mkContainerV1 vendor target align es blobStore) none =
      .ok ⟨⟨1, vendor, target, align, ClfKind.Compute,
            14 + vendor.length + target.length⟩,
           es, mkContainerV1 vendor target align es blobStore,
           18 + vendor.length + target.length + 12 * es.length,
           18 + vendor.length + target.length + 12 * es.length,
           blobStore.length, false⟩ :=
  open_mkContainerV1 vendor target blobStore align es hv ht hvl htl hel hes hns

/-- Counterexample to C2 as stated: a version-1 container holding a nonempty
target ("X") and alignment 7 opens successfully, and the header reports that
stored target and alignment — not the synthesized empty target and zero
alignment the claim asserts. -/
theorem open_v1_counterexample :
    ClfReader.openClf [67, 76, 70, 49, 1, 0, 0, 0, 0, 1, 0, 0, 0, 88, 7, 0, 0, 0, 0] =
      .ok ⟨⟨1, [], [88], 7, .Compute, 15⟩, [],
           [67, 76, 70, 49, 1, 0, 0, 0, 0, 1, 0, 0, 0, 88, 7, 0, 0, 0, 0],
           19, 19, 0, false⟩ ∧
    ([88] : List Nat) ≠ [] ∧ (7 : Nat) ≠ 0 := by decide

/-- Witness for the amended C2 theorem at a concrete v1 container with
vendor "V", target "X", alignment 7 and one manifest entry. -/
theorem open_v1_reads_target_and_alignment_witness :
    ClfReader.open_with_expected_kind
        (mkContainerV1 [86] [88] 7 [⟨5, 0, 2⟩] [9, 9]) none =
      .ok ⟨⟨1, [86], [88], 7, ClfKind.Compute, 16⟩, [⟨5, 0, 2⟩],
           mkContainerV1 [86] [88] 7 [⟨5, 0, 2⟩] [9, 9], 32, 32, 2, false⟩ := by
  have h := open_v1_reads_target_and_alignment [86] [88] [9, 9] 7 [⟨5, 0, 2⟩]
    (by decide) (by decide) (by decide) (by decide) (by decide) (by decide) (by decide)
  rw [h]
  decide

lemma mkContainerV2_length (vendor target blobStore : List Nat)
    (align kindB : Nat) (es : List ManifestEntry) :
    (mkContainerV2 vendor target align kindB es blobStore).length =
      19 + vendor.length + target.length + 12 * es.length + blobStore.length := by
  simp [mkContainerV2, CLF_MAGIC_length, le32bytes_length, encManifest_length]
  omega

/-- C9 (duplicate manifest entries, last write wins): a container whose
manifest holds an entry `e` whose op_id already occurred earlier opens
without error; the reader's mapping serves `e` (the entry appearing last in
manifest order for that op_id), and `get_blob` returns the bytes `e`
locates. -/
theorem open_duplicate_last_wins (vendor target blobStore : List Nat)
    (align kindB : Nat) (es₁ es₂ : List ManifestEntry) (e : ManifestEntry)
    (hv : isValidUtf8 vendor = true) (ht : isValidUtf8 target = true)
    (hvl : vendor.length < 4294967296) (htl : target.length < 4294967296)
    (hel : (es₁ ++ e :: es₂).length < 4294967296)
    (hes : entriesWF (es₁ ++ e :: es₂) = true)
    (hns : hasSigProbe
      (mkContainerV2 vendor target align kindB (es₁ ++ e :: es₂) blobStore) = false)
    (hdup : ∃ x ∈ es₁, x.op_id = e.op_id)
    (hlast : ∀ x ∈ es₂, x.op_id ≠ e.op_id)
    (hb : e.offset + e.size ≤ blobStore.length) :
    ∃ st0,
      ClfReader.open_with_expected_kind
          (mkContainerV2 vendor target align kindB (es₁ ++ e :: es₂) blobStore) none =
        .ok st0 ∧
      mLookup st0.manifest e.op_id = some e ∧
      (st0.get_blob e.op_id).1 =
        .ok (some ((blobStore.drop e.offset).take e.size)) := by
  have hopen := open_mkContainerV2 vendor target blobStore align kindB
    (es₁ ++ e :: es₂) hv ht hvl htl hel hes hns
  refine ⟨_, hopen, ?_, ?_⟩
  · exact mLookup_last es₁ es₂ e e.op_id rfl hlast
  · have hlook : mLookup (es₁ ++ e :: es₂) e.op_id = some e :=
      mLookup_last es₁ es₂ e e.op_id rfl hlast
    have hfl :
        19 + vendor.length + target.length + 12 * (es₁ ++ e :: es₂).length +
            blobStore.length ≤
          (mkContainerV2 vendor target align kindB (es₁ ++ e :: es₂) blobStore).length := by
      rw [mkContainerV2_length]
    have hgb := get_blob_present
      ⟨⟨2, vendor, target, align, ClfKind.from_byte kindB,
        15 + vendor.length + target.length⟩,
       es₁ ++ e :: es₂,
       mkContainerV2 vendor target align kindB (es₁ ++ e :: es₂) blobStore,
       19 + vendor.length + target.length + 12 * (es₁ ++ e :: es₂).length,
       19 + vendor.length + target.length + 12 * (es₁ ++ e :: es₂).length,
       blobStore.length, false⟩
      e e.op_id hlook hb hfl
    rw [hgb]
    simp only []
    congr 1
    congr 1
    have hpre :
        (CLF_MAGIC ++ [2] ++ le32bytes vendor.length ++ vendor ++
          le32bytes target.length ++ target ++ [align] ++ [kindB] ++
          le32bytes (es₁ ++ e :: es₂).length ++ encManifest (es₁ ++ e :: es₂)).length =
        19 + vendor.length + target.length + 12 * (es₁ ++ e :: es₂).length := by
      simp [CLF_MAGIC_length, le32bytes_length, encManifest_length]
      omega
    rw [show mkContainerV2 vendor target align kindB (es₁ ++ e :: es₂) blobStore =
        (CLF_MAGIC ++ [2] ++ le32bytes vendor.length ++ vendor ++
          le32bytes target.length ++ target ++ [align] ++ [kindB] ++
          le32bytes (es₁ ++ e :: es₂).length ++ encManifest (es₁ ++ e :: es₂)) ++
          blobStore from rfl]
    rw [show 19 + vendor.length + target.length + 12 * (es₁ ++ e :: es₂).length +
        e.offset =
        (CLF_MAGIC ++ [2] ++ le32bytes vendor.length ++ vendor ++
          le32bytes target.length ++ target ++ [align] ++ [kindB] ++
          le32bytes (es₁ ++ e :: es₂).length ++ encManifest (es₁ ++ e :: es₂)).length +
          e.offset by rw [hpre]]
    rw [List.drop_append]
/-- Witness for the duplicate-manifest theorem: two entries for op_id 5, the
first locating `[7]`, the last locating `[8, 9]`; the reader serves `[8, 9]`. -/
theorem open_duplicate_last_wins_witness :
    ∃ st0,
      ClfReader.open_with_expected_kind
          (mkContainerV2 [] [] 0 0 ([⟨5, 0, 1⟩] ++ ⟨5, 1, 2⟩ :: []) [7, 8, 9]) none =
        .ok st0 ∧
      mLookup st0.manifest 5 = some ⟨5, 1, 2⟩ ∧
      (st0.get_blob 5).1 = .ok (some [8, 9]) :=
  open_duplicate_last_wins [] [] [7, 8, 9] 0 0 [⟨5, 0, 1⟩] [] ⟨5, 1, 2⟩
    (by decide) (by decide) (by decide) (by decide) (by decide) (by decide)
    (by decide) (by decide) (by decide) (by decide)

/-- C1 (round-trip, failing evaluation): packing the single entry
`(1, [1, 2])` with default options yields the 21-byte stream shown — 2-byte
length prefixes, 2-byte op_id, no target/alignment/kind — and opening that
very stream fails with an end-of-file I/O error (the reader parses bytes
5..9 as a 4-byte vendor length of 65536), so `get_blob` is never reached. -/
theorem pack_then_open_fails :
    pack_clf [] [(1, [1, 2])] PackOptions.default =
      (none, [67, 76, 70, 49, 2, 0, 0, 1, 0, 1, 0, 0, 0, 0, 0, 2, 0, 0, 0, 1, 2]) ∧
    ClfReader.openClf [67, 76, 70, 49, 2, 0, 0, 1, 0, 1, 0, 0, 0, 0, 0, 2, 0, 0, 0, 1, 2] =
      .error (.io .unexpectedEof) := by decide

/-- C3 (packer header layout, failing evaluation): with version 2 and vendor
"V", `pack_clf` writes magic, version byte, the 2-byte vendor length, the
vendor bytes — and then immediately the 2-byte manifest count: no target
string, no alignment byte, no kind byte exist in the output (nor in
`PackOptions`). -/
theorem pack_writes_no_target_alignment_kind :
    pack_clf [] [] ⟨[86], 2, false⟩ =
      (none, CLF_MAGIC ++ [2] ++ [1, 0] ++ [86] ++ [0, 0]) := by decide

/-- C4 (alignment padding, failing evaluation): packing `(1, [1, 2])` (the
repository's own alignment test uses version 1 and expects a 16-byte padded
blob) stores the blob unpadded: the manifest size field is 2 and the blob
store — the bytes from offset 19 on — is exactly `[1, 2]`, of length 2, not
16. `PackOptions` has no `blob_alignment` field at all. -/
theorem pack_no_alignment_padding :
    pack_clf [] [(1, [1, 2])] ⟨[], 1, false⟩ =
      (none, [67, 76, 70, 49, 1, 0, 0, 1, 0, 1, 0, 0, 0, 0, 0, 2, 0, 0, 0, 1, 2]) ∧
    List.drop 19 [67, 76, 70, 49, 1, 0, 0, 1, 0, 1, 0, 0, 0, 0, 0, 2, 0, 0, 0, 1, 2] = [1, 2] ∧
    (List.drop 19 [67, 76, 70, 49, 1, 0, 0, 1, 0, 1, 0, 0, 0, 0, 0, 2, 0, 0, 0, 1, 2]).length = 2 := by
  decide

end Clf
